import Mathlib

/-!
Verification of the connection-scoped transcription service (`main.go`).

The Go program is shallowly embedded:
* Go `float64` timestamp fields are modelled as `ℚ` (the provider delivers
  integral millisecond values; the program only divides them by `1000.0`).
* The external AssemblyAI collaborator is modelled by environments: a status
  stream for the poller, `Except`-valued outcomes for submit and fetch.
* The unbounded `for` loop of `waitUntilCompleted` is modelled with explicit
  fuel; `none` means the loop is still polling after that many queries.
* The mutex-guarded global map `transcriptions` is modelled as an association
  list whose guarded update is a single atomic step of the system model.
-/

namespace MeetingAI

/-- Utterance mirrors the Go struct `Utterance` (main.go:23-28): provider-native
segment with text, speaker and millisecond start/end stamps. -/
structure Utterance where
  text : String
  speaker : String
  start : ℚ
  «end» : ℚ
deriving DecidableEq, Repr

/-- CleanUtterance mirrors the Go struct `CleanUtterance` (main.go:32-36): the
public segment shape, speaker dropped, second-granularity stamps. -/
structure CleanUtterance where
  text : String
  start : ℚ
  «end» : ℚ
deriving DecidableEq, Repr

/-- The global map `transcriptions` (main.go:41), keyed by connection id.
An association list where the most recent binding wins, as `map[string]` does
under fresh keys. -/
abbrev Store := List (String × List CleanUtterance)

/-- Normalization loop of `handleWS` (main.go:181-188): `cleaned[i]` keeps the
text, divides both stamps by 1000 and drops the speaker. -/
def normalize (utterances : List Utterance) : List CleanUtterance :=
  utterances.map fun u => ⟨u.text, u.start / 1000, u.«end» / 1000⟩

/-- Body of an HTTP response: a JSON-encoded segment array or a plain-text
message, as produced by `json.NewEncoder(w).Encode` and `http.Error`. -/
inductive HTTPBody where
  | json (segments : List CleanUtterance)
  | text (message : String)
deriving DecidableEq, Repr

/-- Status code and body of an HTTP response. -/
structure HTTPResponse where
  status : Nat
  body : HTTPBody
deriving DecidableEq, Repr

/-- handleGetTranscription (main.go:200-214): look the id up in the guarded
map; found ⇒ 200 with the JSON array, absent ⇒ 404 plain text. -/
def handleGetTranscription (transcriptions : Store) (id : String) : HTTPResponse :=
  match transcriptions.lookup id with
  | some data => ⟨200, .json data⟩
  | none => ⟨404, .text "Transcription not found"⟩

/-- Remote transcript as polled (SDK `Transcript`): a status string
("queued", "processing", "completed", "error", …) and the optional
error-detail pointer `Error` (nil ⇝ `none`). -/
structure Transcript where
  status : String
  error : Option String
deriving DecidableEq, Repr

/-- Outcome of one `client.Transcripts.Get` call (main.go:85): transport
failure or a transcript value. -/
inductive GetResult where
  | failure (e : String)
  | transcript (t : Transcript)
deriving DecidableEq, Repr

/-- How `waitUntilCompleted` leaves the loop: `ok` returns the completed
transcript, `getErr` propagates a status-query failure, `failed` is the
`transcription failed: …` error, `nilDeref` marks the nil-pointer fault of
`*tr.Error` when the error status carries no detail. -/
inductive PollOutcome where
  | ok (t : Transcript)
  | getErr (e : String)
  | failed (msg : String)
  | nilDeref
deriving DecidableEq, Repr

/-- waitUntilCompleted (main.go:83-101). `polls i` is the transcript the i-th
status query observes; `k` counts queries made so far, `t` is the elapsed time
in seconds (each loop iteration ends in `time.Sleep(3 * time.Second)`, hence
the `t + 3`). Fuel bounds how many queries we unroll: `none` means the loop is
still running after `fuel` queries. On exit the elapsed time is returned with
the outcome. -/
def waitUntilCompleted (polls : Nat → GetResult) : Nat → Nat → Nat → Option (PollOutcome × Nat)
  | 0, _, _ => none
  | fuel + 1, k, t =>
    match polls k with
    | .failure e => some (.getErr e, t)
    | .transcript tr =>
      if tr.status = "completed" then some (.ok tr, t)
      else if tr.status = "error" then
        match tr.error with
        | some d => some (.failed ("transcription failed: " ++ d), t)
        | none => some (.nilDeref, t)
      else waitUntilCompleted polls fuel (k + 1) (t + 3)

/-- A status query answer on which the loop keeps polling: a transcript whose
status is neither "completed" nor "error" (the `switch` falls through to the
sleep). -/
def nonterminal (r : GetResult) : Bool :=
  match r with
  | .failure _ => false
  | .transcript tr => tr.status != "completed" && tr.status != "error"

/-- Observable milestones of one session, in the order `handleWS` reaches
them: the binary frame has been read, the payload has been written to the
temporary file, the job has been submitted, the record has been put into the
guarded map, the `{"connection_id": …}` frame has been written. -/
inductive Event where
  | frameRead
  | tempWritten
  | submitted (jobId : String)
  | storePut (id : String)
  | responded (id : String)
deriving DecidableEq, Repr

/-- Abort causes of `handleWS`, one per early `return` (main.go:112-179). -/
inductive AbortReason where
  | badFrame
  | tempCreateFailed
  | tempWriteFailed
  | openFailed
  | noApiKey
  | submitFailed
  | pollFailed
  | fetchFailed
deriving DecidableEq, Repr

/-- How a session run ends: aborted on one of the early returns, still inside
the poll loop after the given fuel, faulted on the nil error-detail
dereference, or completed with the stored connection id. -/
inductive WSOutcome where
  | aborted (r : AbortReason)
  | stillPolling
  | panicked
  | success (id : String)
deriving DecidableEq, Repr

/-- Environment of one session: the outcomes the outside world hands each
effectful call in `handleWS`. `readMsg` is `conn.ReadMessage` (message type
and payload bytes, `websocket.BinaryMessage = 2`), the three file-system
steps mirror `os.CreateTemp`, `tmpfile.Write`, `os.Open`, `apiKey` is
`os.Getenv("ASSEMBLYAI_API_KEY")`, `submit` is
`client.Transcripts.TranscribeFromReader` yielding the job id, `polls` feeds
the status queries of `waitUntilCompleted`, `fetch` is
`getUtterancesFromTranscript`, and `writeOk` tells whether the final
`conn.WriteJSON` succeeds. -/
structure WSEnv where
  readMsg : Except String (Nat × List Nat)
  tempCreate : Except String Unit
  tempWrite : Except String Unit
  openFile : Except String Unit
  apiKey : String
  submit : Except String String
  polls : Nat → GetResult
  fetch : Except String (List Utterance)
  writeOk : Bool

/-- Result of one session run: the store after the run, the connection id
delivered to the client (if any), the outcome, and the event trace. -/
structure WSResult where
  store : Store
  response : Option String
  outcome : WSOutcome
  events : List Event
deriving Repr

/-- handleWS (main.go:112-195), one session end to end. Every early `return`
of the Go code becomes an `aborted` result that leaves the store untouched
and sends no response; on success the record is put into the map (under the
mutex) and only then is the `connection_id` frame written, whose failure is
ignored. `connectionID` is the freshly generated UUID (main.go:120). -/
def handleWS (env : WSEnv) (connectionID : String) (fuel : Nat)
    (transcriptions : Store) : WSResult :=
  match env.readMsg with
  | .error _ => ⟨transcriptions, none, .aborted .badFrame, []⟩
  | .ok (mt, _data) =>
    if mt ≠ 2 then ⟨transcriptions, none, .aborted .badFrame, []⟩
    else
      match env.tempCreate with
      | .error _ => ⟨transcriptions, none, .aborted .tempCreateFailed, [.frameRead]⟩
      | .ok _ =>
        match env.tempWrite with
        | .error _ => ⟨transcriptions, none, .aborted .tempWriteFailed, [.frameRead]⟩
        | .ok _ =>
          match env.openFile with
          | .error _ =>
            ⟨transcriptions, none, .aborted .openFailed, [.frameRead, .tempWritten]⟩
          | .ok _ =>
            if env.apiKey = "" then
              ⟨transcriptions, none, .aborted .noApiKey, [.frameRead, .tempWritten]⟩
            else
              match env.submit with
              | .error _ =>
                ⟨transcriptions, none, .aborted .submitFailed, [.frameRead, .tempWritten]⟩
              | .ok jobId =>
                match waitUntilCompleted env.polls fuel 0 0 with
                | none =>
                  ⟨transcriptions, none, .stillPolling,
                    [.frameRead, .tempWritten, .submitted jobId]⟩
                | some (.getErr _, _) =>
                  ⟨transcriptions, none, .aborted .pollFailed,
                    [.frameRead, .tempWritten, .submitted jobId]⟩
                | some (.failed _, _) =>
                  ⟨transcriptions, none, .aborted .pollFailed,
                    [.frameRead, .tempWritten, .submitted jobId]⟩
                | some (.nilDeref, _) =>
                  ⟨transcriptions, none, .panicked,
                    [.frameRead, .tempWritten, .submitted jobId]⟩
                | some (.ok _, _) =>
                  match env.fetch with
                  | .error _ =>
                    ⟨transcriptions, none, .aborted .fetchFailed,
                      [.frameRead, .tempWritten, .submitted jobId]⟩
                  | .ok utterances =>
                    ⟨(connectionID, normalize utterances) :: transcriptions,
                      if env.writeOk then some connectionID else none,
                      .success connectionID,
                      [.frameRead, .tempWritten, .submitted jobId,
                        .storePut connectionID] ++
                        (if env.writeOk then [.responded connectionID] else [])⟩

/-- Phase of a session task as seen through the shared state: still before or
inside the poll loop, record stored (the `transcriptions[connectionID] = …`
step has run), or aborted on one of the early returns. -/
inductive Phase where
  | receiving
  | polling
  | stored (record : List CleanUtterance)
  | aborted
deriving DecidableEq, Repr

/-- Shared state of the process: the guarded map and, for each connection id,
the phase of the session that owns it (`none` when no session ever used the
id). -/
structure SysState where
  transcriptions : Store
  sessions : String → Option Phase

/-- Interleaving semantics of the concurrently running session tasks. Fresh
UUIDs make spawned ids new; the store is written in exactly one step, the
mutex-guarded `transcriptions[connectionID] = cleaned` of a session that
polled to completion — the mutex makes that update atomic, so it is a single
step here. -/
inductive Step : SysState → SysState → Prop where
  | spawn (σ : SysState) (id : String) (h : σ.sessions id = none) :
      Step σ ⟨σ.transcriptions, Function.update σ.sessions id (some .receiving)⟩
  | submit (σ : SysState) (id : String) (h : σ.sessions id = some .receiving) :
      Step σ ⟨σ.transcriptions, Function.update σ.sessions id (some .polling)⟩
  | abort (σ : SysState) (id : String)
      (h : σ.sessions id = some .receiving ∨ σ.sessions id = some .polling) :
      Step σ ⟨σ.transcriptions, Function.update σ.sessions id (some .aborted)⟩
  | complete (σ : SysState) (id : String) (record : List CleanUtterance)
      (h : σ.sessions id = some .polling) :
      Step σ ⟨(id, record) :: σ.transcriptions,
        Function.update σ.sessions id (some (.stored record))⟩

/-- States reachable from process start (empty map, no sessions). -/
inductive Reachable : SysState → Prop where
  | init : Reachable ⟨[], fun _ => none⟩
  | step {σ σ' : SysState} : Reachable σ → Step σ σ' → Reachable σ'

/-- Store invariant: an id maps to a record exactly when its session has
stored that record. -/
def Inv (σ : SysState) : Prop :=
  ∀ id record, σ.transcriptions.lookup id = some record ↔
    σ.sessions id = some (.stored record)

/-- Program counter of one task with respect to the store mutex `mu`: before
`mu.Lock()`, inside the critical section, or past `mu.Unlock()`. Both the
store write of `handleWS` (main.go:190-192) and the read of
`handleGetTranscription` (main.go:203-205) take this same exclusive lock. -/
inductive TaskPC where
  | idle
  | crit
  | done
deriving DecidableEq, Repr

/-- State of `n` tasks contending for the single `sync.Mutex`: who holds it
(if anyone) and each task's program counter. -/
structure LockState (n : Nat) where
  owner : Option (Fin n)
  pc : Fin n → TaskPC

/-- Semantics of `sync.Mutex`: `Lock` succeeds only when free, `Unlock` is
performed by the holder. Read accesses take the very same exclusive lock as
writes (the code has no RWMutex). -/
inductive LockStep (n : Nat) : LockState n → LockState n → Prop where
  | acquire (s : LockState n) (i : Fin n) (hpc : s.pc i = .idle)
      (hfree : s.owner = none) :
      LockStep n s ⟨some i, Function.update s.pc i .crit⟩
  | release (s : LockState n) (i : Fin n) (hpc : s.pc i = .crit)
      (hown : s.owner = some i) :
      LockStep n s ⟨none, Function.update s.pc i .done⟩

/-- All tasks start before their store access, the lock free. -/
def lockInit (n : Nat) : LockState n := ⟨none, fun _ => .idle⟩

/-- Lock states reachable from the initial one. -/
inductive LockReachable (n : Nat) : LockState n → Prop where
  | init : LockReachable n (lockInit n)
  | step {s s' : LockState n} : LockReachable n s → LockStep n s s' →
      LockReachable n s'

theorem nonterminal_spec (r : GetResult) (h : nonterminal r = true) :
    ∃ tr, r = .transcript tr ∧ tr.status ≠ "completed" ∧ tr.status ≠ "error" := by
  cases r with
  | failure e => simp [nonterminal] at h
  | transcript tr =>
    simp only [nonterminal, Bool.and_eq_true, bne_iff_ne] at h
    exact ⟨tr, rfl, h.1, h.2⟩

theorem wait_skip (polls : Nat → GetResult) (k : Nat) :
    ∀ j fuel t, (∀ i, j ≤ i → i < j + k → nonterminal (polls i) = true) →
      waitUntilCompleted polls (k + fuel) j t
        = waitUntilCompleted polls fuel (j + k) (t + 3 * k) := by
  induction k with
  | zero => intro j fuel t _; simp
  | succ k ih =>
    intro j fuel t h
    obtain ⟨tr, hr, hc, he⟩ := nonterminal_spec _ (h j le_rfl (by omega))
    have hstep : k + 1 + fuel = (k + fuel) + 1 := by omega
    rw [hstep, waitUntilCompleted, hr]
    simp only [hc, he, if_false]
    have := ih (j + 1) fuel (t + 3) (fun i h1 h2 => h i (by omega) (by omega))
    rw [this]
    have h1 : j + 1 + k = j + (k + 1) := by omega
    have h2 : t + 3 + 3 * k = t + 3 * (k + 1) := by ring
    rw [h1, h2]

theorem wait_reaches (polls : Nat → GetResult) (k fuel : Nat)
    (hpre : ∀ i, i < k → nonterminal (polls i) = true) (hfuel : k < fuel) :
    waitUntilCompleted polls fuel 0 0
      = waitUntilCompleted polls (fuel - k) k (3 * k) := by
  obtain ⟨m, rfl⟩ : ∃ m, fuel = k + m := ⟨fuel - k, by omega⟩
  have := wait_skip polls k 0 m 0 (fun i h1 h2 => hpre i (by omega))
  simpa using this

/-- C1: for every submitted job handle the poller queries the status
repeatedly, 3 seconds apart (the k-th query happens 3·k seconds in), and
returns only upon a terminal state: a `completed` status returns the finished
transcript, an `error` status fails with the `transcription failed:` error
carrying the provider-supplied detail string, and as long as every status
observed is non-terminal (`queued`, `processing`, unknown) the loop is still
running after any number of queries — no overall timeout. -/
theorem poller_terminal_behaviour (polls : Nat → GetResult) (k : Nat)
    (hpre : ∀ i, i < k → nonterminal (polls i) = true) :
    (∀ tr, polls k = .transcript tr → tr.status = "completed" →
      ∀ fuel, k < fuel →
        waitUntilCompleted polls fuel 0 0 = some (.ok tr, 3 * k))
    ∧ (∀ tr d, polls k = .transcript tr → tr.status = "error" →
        tr.error = some d → ∀ fuel, k < fuel →
          waitUntilCompleted polls fuel 0 0
            = some (.failed ("transcription failed: " ++ d), 3 * k))
    ∧ waitUntilCompleted polls k 0 0 = none := by
  refine ⟨?_, ?_, ?_⟩
  · intro tr ht hst fuel hfuel
    rw [wait_reaches polls k fuel hpre hfuel]
    obtain ⟨m, hm⟩ : ∃ m, fuel - k = m + 1 := ⟨fuel - k - 1, by omega⟩
    rw [hm, waitUntilCompleted, ht]
    simp [hst]
  · intro tr d ht hst hdet fuel hfuel
    rw [wait_reaches polls k fuel hpre hfuel]
    obtain ⟨m, hm⟩ : ∃ m, fuel - k = m + 1 := ⟨fuel - k - 1, by omega⟩
    rw [hm, waitUntilCompleted, ht]
    have : tr.status ≠ "completed" := by rw [hst]; decide
    simp [this, hst, hdet]
  · have := wait_skip polls k 0 0 0 (fun i h1 h2 => hpre i (by omega))
    simpa using this

theorem poller_terminal_behaviour_witness :
    waitUntilCompleted
        (fun i => if i < 2 then .transcript ⟨"processing", none⟩
          else .transcript ⟨"completed", none⟩) 3 0 0
      = some (.ok ⟨"completed", none⟩, 6) :=
  (poller_terminal_behaviour
      (fun i => if i < 2 then .transcript ⟨"processing", none⟩
        else .transcript ⟨"completed", none⟩) 2
      (by decide)).1 ⟨"completed", none⟩ (by decide) rfl 3 (by decide)

/-- C8: when a status query reports the `error` status the loop builds the
failure message by dereferencing the error-detail pointer `*tr.Error`; with
the detail present the session fails cleanly with the provider string, but
an `error` status whose detail is absent (nil pointer) makes the dereference
fault instead of producing a clean abort. -/
theorem poller_error_detail_deref (polls : Nat → GetResult) (k : Nat)
    (hpre : ∀ i, i < k → nonterminal (polls i) = true)
    (tr : Transcript) (ht : polls k = .transcript tr)
    (herr : tr.status = "error") :
    (∀ d, tr.error = some d → ∀ fuel, k < fuel →
      waitUntilCompleted polls fuel 0 0
        = some (.failed ("transcription failed: " ++ d), 3 * k))
    ∧ (tr.error = none → ∀ fuel, k < fuel →
      waitUntilCompleted polls fuel 0 0 = some (.nilDeref, 3 * k)) := by
  have hne : tr.status ≠ "completed" := by rw [herr]; decide
  constructor
  · intro d hdet fuel hfuel
    rw [wait_reaches polls k fuel hpre hfuel]
    obtain ⟨m, hm⟩ : ∃ m, fuel - k = m + 1 := ⟨fuel - k - 1, by omega⟩
    rw [hm, waitUntilCompleted, ht]
    simp [hne, herr, hdet]
  · intro hdet fuel hfuel
    rw [wait_reaches polls k fuel hpre hfuel]
    obtain ⟨m, hm⟩ : ∃ m, fuel - k = m + 1 := ⟨fuel - k - 1, by omega⟩
    rw [hm, waitUntilCompleted, ht]
    simp [hne, herr, hdet]

theorem poller_error_detail_deref_witness :
    waitUntilCompleted (fun _ => .transcript ⟨"error", none⟩) 1 0 0
      = some (.nilDeref, 0) :=
  (poller_error_detail_deref (fun _ => .transcript ⟨"error", none⟩) 0
      (by decide) ⟨"error", none⟩ rfl rfl).2 rfl 1 (by decide)

/-- C3: normalization is a pure function on the raw segment list:
length-preserving, order-preserving (the i-th output is derived from the i-th
input), mapping each raw segment to the public segment whose stamps are the
millisecond stamps divided by 1000 with the speaker field dropped; in
particular on the one-segment list with speaker "A" and stamps 2840/5860 it
yields text "a" with stamps 2.84/5.86. -/
theorem normalize_pure_scale :
    (∀ utterances : List Utterance,
      (normalize utterances).length = utterances.length)
    ∧ (∀ utterances : List Utterance, ∀ i : Nat,
      (normalize utterances).get? i
        = (utterances.get? i).map fun u => ⟨u.text, u.start / 1000, u.«end» / 1000⟩)
    ∧ normalize [⟨"a", "A", 2840, 5860⟩] = [⟨"a", 2.84, 5.86⟩] := by
  refine ⟨?_, ?_, ?_⟩
  · intro utterances; simp [normalize]
  · intro utterances i; simp [normalize]
  · simp only [normalize, List.map_cons, List.map_nil, List.cons.injEq, and_true,
      CleanUtterance.mk.injEq]
    norm_num

/-- Shape of every successful run of `handleWS`: the stored id is the fresh
connection id, the record put into the map is the normalization of the
fetched utterances, the record is put strictly before the response frame is
attempted, and the response is delivered exactly when the final `WriteJSON`
succeeds (its failure being ignored). -/
theorem handleWS_success_spec (env : WSEnv) (cid : String) (fuel : Nat)
    (store : Store) (id : String)
    (h : (handleWS env cid fuel store).outcome = .success id) :
    id = cid ∧ ∃ utts jobId, env.fetch = .ok utts
      ∧ (handleWS env cid fuel store).store = (cid, normalize utts) :: store
      ∧ (handleWS env cid fuel store).response
          = (if env.writeOk then some cid else none)
      ∧ (handleWS env cid fuel store).events
          = [.frameRead, .tempWritten, .submitted jobId, .storePut cid]
            ++ (if env.writeOk then [.responded cid] else []) := by
  unfold handleWS at h ⊢
  repeat' split at h
  all_goals simp_all

/-- C4: on every abort path of the session handler the session terminates
with the result store unchanged and no response sent; the run is a total
function of the session's own environment, so the failure is local to the
session and other sessions, which share only the store, are unaffected. -/
theorem session_abort_no_effect (env : WSEnv) (connectionID : String)
    (fuel : Nat) (transcriptions : Store) (r : AbortReason)
    (h : (handleWS env connectionID fuel transcriptions).outcome = .aborted r) :
    (handleWS env connectionID fuel transcriptions).store = transcriptions
    ∧ (handleWS env connectionID fuel transcriptions).response = none := by
  unfold handleWS at h ⊢
  repeat' split at h
  all_goals simp_all

theorem session_abort_no_effect_witness :
    (handleWS ⟨.error "read failed", .ok (), .ok (), .ok (), "key", .ok "job",
        (fun _ => .transcript ⟨"completed", none⟩), .ok [], true⟩
        "c" 1 []).store = ([] : Store)
    ∧ (handleWS ⟨.error "read failed", .ok (), .ok (), .ok (), "key", .ok "job",
        (fun _ => .transcript ⟨"completed", none⟩), .ok [], true⟩
        "c" 1 []).response = none :=
  session_abort_no_effect
    ⟨.error "read failed", .ok (), .ok (), .ok (), "key", .ok "job",
      (fun _ => .transcript ⟨"completed", none⟩), .ok [], true⟩
    "c" 1 [] .badFrame rfl

/-- C9: on a successful session the record is put into the result store
strictly before the `connection_id` response frame is attempted (the event
trace lists `storePut` ahead of any `responded`), and a failure of that final
write is ignored: the record stays stored while no response reaches the
client, so a fully-written record can exist under an identifier never
delivered to anyone. -/
theorem record_stored_before_response (env : WSEnv) (connectionID : String)
    (fuel : Nat) (transcriptions : Store) (id : String)
    (h : (handleWS env connectionID fuel transcriptions).outcome = .success id) :
    ∃ record jobId,
      (handleWS env connectionID fuel transcriptions).store
          = (id, record) :: transcriptions
      ∧ (handleWS env connectionID fuel transcriptions).events
          = [.frameRead, .tempWritten, .submitted jobId, .storePut id]
            ++ (if env.writeOk then [.responded id] else [])
      ∧ (handleWS env connectionID fuel transcriptions).response
          = (if env.writeOk then some id else none) := by
  obtain ⟨rfl, utts, jobId, hf, hs, hr, he⟩ :=
    handleWS_success_spec env connectionID fuel transcriptions id h
  exact ⟨normalize utts, jobId, hs, he, hr⟩

/-- Environment of a session whose every external call succeeds but whose
final response write fails. -/
def wsEnvNoAck : WSEnv :=
  ⟨.ok (2, [0]), .ok (), .ok (), .ok (), "key", .ok "job",
    (fun _ => .transcript ⟨"completed", none⟩), .ok [⟨"hello", "A", 0, 1000⟩],
    false⟩

theorem record_stored_before_response_witness :
    ∃ record jobId,
      (handleWS wsEnvNoAck "c" 1 []).store = ("c", record) :: ([] : Store)
      ∧ (handleWS wsEnvNoAck "c" 1 []).events
          = [.frameRead, .tempWritten, .submitted jobId, .storePut "c"]
            ++ (if wsEnvNoAck.writeOk then [.responded "c"] else [])
      ∧ (handleWS wsEnvNoAck "c" 1 []).response
          = (if wsEnvNoAck.writeOk then some "c" else none) :=
  record_stored_before_response wsEnvNoAck "c" 1 [] "c" rfl

/-- C10: the provider credential is read per session, not at startup: a
session whose frame was read and persisted to the temporary file aborts on an
absent `ASSEMBLYAI_API_KEY` — after `frameRead` and `tempWritten` already
happened — storing nothing and answering nothing, while later sessions
(running against the same, unchanged store) proceed exactly as they would
have. -/
theorem apikey_checked_per_session (env : WSEnv) (connectionID : String)
    (fuel : Nat) (transcriptions : Store) (data : List Nat)
    (hread : env.readMsg = .ok (2, data)) (hcreate : env.tempCreate = .ok ())
    (hwrite : env.tempWrite = .ok ()) (hopen : env.openFile = .ok ())
    (hkey : env.apiKey = "") :
    (handleWS env connectionID fuel transcriptions).outcome = .aborted .noApiKey
    ∧ (handleWS env connectionID fuel transcriptions).store = transcriptions
    ∧ (handleWS env connectionID fuel transcriptions).response = none
    ∧ (handleWS env connectionID fuel transcriptions).events
        = [.frameRead, .tempWritten]
    ∧ (∀ env' cid' fuel',
        handleWS env' cid' fuel'
            (handleWS env connectionID fuel transcriptions).store
          = handleWS env' cid' fuel' transcriptions) := by
  have hs : handleWS env connectionID fuel transcriptions
      = ⟨transcriptions, none, .aborted .noApiKey, [.frameRead, .tempWritten]⟩ := by
    simp [handleWS, hread, hcreate, hwrite, hopen, hkey]
  rw [hs]
  exact ⟨rfl, rfl, rfl, rfl, fun _ _ _ => rfl⟩

/-- Environment of a session that reads and persists its frame but finds no
credential in the environment. -/
def wsEnvNoKey : WSEnv :=
  ⟨.ok (2, [0]), .ok (), .ok (), .ok (), "", .ok "job",
    (fun _ => .transcript ⟨"completed", none⟩), .ok [], true⟩

theorem apikey_checked_per_session_witness :
    (handleWS wsEnvNoKey "c" 1 []).outcome = .aborted .noApiKey
    ∧ (handleWS wsEnvNoKey "c" 1 []).store = ([] : Store)
    ∧ (handleWS wsEnvNoKey "c" 1 []).response = none
    ∧ (handleWS wsEnvNoKey "c" 1 []).events = [.frameRead, .tempWritten]
    ∧ (∀ env' cid' fuel',
        handleWS env' cid' fuel' (handleWS wsEnvNoKey "c" 1 []).store
          = handleWS env' cid' fuel' ([] : Store)) :=
  apikey_checked_per_session wsEnvNoKey "c" 1 [] [0] rfl rfl rfl rfl rfl

theorem inv_init : Inv ⟨[], fun _ => none⟩ := by
  intro id record
  simp [List.lookup]

theorem inv_step {σ σ' : SysState} (hinv : Inv σ) (hs : Step σ σ') : Inv σ' := by
  cases hs with
  | spawn id h =>
    intro id' record
    dsimp only
    by_cases hid : id' = id
    · subst hid
      rw [Function.update_same]
      constructor
      · intro hl
        have hss := (hinv id' record).1 hl
        rw [h] at hss
        exact absurd hss (by simp)
      · intro hc
        simp at hc
    · rw [Function.update_noteq hid]
      exact hinv id' record
  | submit id h =>
    intro id' record
    dsimp only
    by_cases hid : id' = id
    · subst hid
      rw [Function.update_same]
      constructor
      · intro hl
        have hss := (hinv id' record).1 hl
        rw [h] at hss
        exact absurd hss (by simp)
      · intro hc
        simp at hc
    · rw [Function.update_noteq hid]
      exact hinv id' record
  | abort id h =>
    intro id' record
    dsimp only
    by_cases hid : id' = id
    · subst hid
      rw [Function.update_same]
      constructor
      · intro hl
        have hss := (hinv id' record).1 hl
        rcases h with h | h <;> rw [h] at hss <;> exact absurd hss (by simp)
      · intro hc
        simp at hc
    · rw [Function.update_noteq hid]
      exact hinv id' record
  | complete id rec h =>
    intro id' record
    dsimp only
    by_cases hid : id' = id
    · subst hid
      rw [Function.update_same]
      simp [List.lookup]
    · rw [Function.update_noteq hid]
      have hbeq : (id' == id) = false := by
        simp [hid]
      simp only [List.lookup, hbeq]
      exact hinv id' record

theorem reachable_inv {σ : SysState} (h : Reachable σ) : Inv σ := by
  induction h with
  | init => exact inv_init
  | step _ hs ih => exact inv_step ih hs

/-- C2: in every reachable state of the process, an identifier is visible to
the retrieval handler — the store lookup succeeds — if and only if its
session has performed its single atomic record write (phase `stored`); a
session that is still polling has written nothing, so retrieval for its
identifier answers 404. The store write is one mutex-guarded step of the
transition system, so no partially-written record is ever observable. -/
theorem store_visibility_iff_completed (σ : SysState) (hr : Reachable σ)
    (id : String) :
    ((∃ record, σ.transcriptions.lookup id = some record) ↔
      (∃ record, σ.sessions id = some (.stored record)))
    ∧ (σ.sessions id = some .polling →
      handleGetTranscription σ.transcriptions id
        = ⟨404, .text "Transcription not found"⟩) := by
  have hinv := reachable_inv hr
  constructor
  · exact ⟨fun ⟨r, hl⟩ => ⟨r, (hinv id r).1 hl⟩,
      fun ⟨r, hs⟩ => ⟨r, (hinv id r).2 hs⟩⟩
  · intro hp
    have hnone : σ.transcriptions.lookup id = none := by
      cases hl : σ.transcriptions.lookup id with
      | none => rfl
      | some r =>
        have hss := (hinv id r).1 hl
        rw [hp] at hss
        exact absurd hss (by simp)
    simp [handleGetTranscription, hnone]

/-- State of a process that spawned one session with id "a" which is now
inside the poll loop. -/
def statePollingA : SysState :=
  ⟨[], Function.update (Function.update (fun _ => none) "a" (some .receiving))
    "a" (some .polling)⟩

theorem statePollingA_reachable : Reachable statePollingA :=
  Reachable.step (Reachable.step Reachable.init (Step.spawn _ "a" rfl))
    (Step.submit _ "a" (by simp))

theorem store_visibility_iff_completed_witness :
    ((∃ record, statePollingA.transcriptions.lookup "a" = some record) ↔
      (∃ record, statePollingA.sessions "a" = some (.stored record)))
    ∧ (statePollingA.sessions "a" = some .polling →
      handleGetTranscription statePollingA.transcriptions "a"
        = ⟨404, .text "Transcription not found"⟩) :=
  store_visibility_iff_completed statePollingA statePollingA_reachable "a"

/-- C5: retrieval with an identifier present in the store answers 200 with
the JSON segment array (possibly empty); an absent identifier — in
particular one no session ever used, in any reachable state — answers 404
with the fixed plain-text message. -/
theorem retrieval_response (transcriptions : Store) (id : String) :
    (∀ data, transcriptions.lookup id = some data →
      handleGetTranscription transcriptions id = ⟨200, .json data⟩)
    ∧ (transcriptions.lookup id = none →
      handleGetTranscription transcriptions id
        = ⟨404, .text "Transcription not found"⟩)
    ∧ (∀ σ : SysState, Reachable σ → σ.sessions id = none →
      handleGetTranscription σ.transcriptions id
        = ⟨404, .text "Transcription not found"⟩) := by
  refine ⟨?_, ?_, ?_⟩
  · intro data hl
    simp [handleGetTranscription, hl]
  · intro hl
    simp [handleGetTranscription, hl]
  · intro σ hr hnone
    have hinv := reachable_inv hr
    have hl : σ.transcriptions.lookup id = none := by
      cases hl : σ.transcriptions.lookup id with
      | none => rfl
      | some r =>
        have hss := (hinv id r).1 hl
        rw [hnone] at hss
        exact absurd hss (by simp)
    simp [handleGetTranscription, hl]

theorem retrieval_response_witness :
    handleGetTranscription [("a", [])] "a" = ⟨200, .json []⟩ :=
  (retrieval_response [("a", [])] "a").1 [] rfl

/-- C6: a session that completes successfully with provider segments that
satisfy the provider guarantees — each segment has start ≤ end and starts are
non-decreasing — yields, on retrieval after completion, a 200 response whose
segment sequence is non-empty, has start_s ≤ end_s in every segment and
non-decreasing starts: normalization's division by 1000 preserves both. -/
theorem completed_session_segments_ordered (env : WSEnv)
    (connectionID : String) (fuel : Nat) (transcriptions : Store)
    (utts : List Utterance) (hfetch : env.fetch = .ok utts) (hne : utts ≠ [])
    (hseg : ∀ u ∈ utts, u.start ≤ u.«end»)
    (hord : utts.Chain' fun a b => a.start ≤ b.start)
    (hsucc : (handleWS env connectionID fuel transcriptions).outcome
      = .success connectionID) :
    ∃ segments,
      handleGetTranscription
          (handleWS env connectionID fuel transcriptions).store connectionID
        = ⟨200, .json segments⟩
      ∧ segments ≠ []
      ∧ (∀ s ∈ segments, s.start ≤ s.«end»)
      ∧ segments.Chain' (fun a b => a.start ≤ b.start) := by
  obtain ⟨-, utts', jobId, hf', hs, -, -⟩ :=
    handleWS_success_spec env connectionID fuel transcriptions connectionID
      hsucc
  rw [hfetch] at hf'
  obtain rfl : utts = utts' := by
    exact Except.ok.inj hf'
  refine ⟨normalize utts, ?_, ?_, ?_, ?_⟩
  · rw [hs]
    simp [handleGetTranscription, List.lookup]
  · simpa [normalize] using hne
  · intro s hsin
    obtain ⟨u, hu, rfl⟩ := List.mem_map.1 hsin
    exact div_le_div_of_nonneg_right (hseg u hu) (by norm_num)
  · rw [normalize, List.chain'_map]
    exact hord.imp fun a b hab => div_le_div_of_nonneg_right hab (by norm_num)

/-- Environment of a session whose every external call succeeds, the
provider delivering one well-formed segment. -/
def wsEnvOK : WSEnv :=
  ⟨.ok (2, [0]), .ok (), .ok (), .ok (), "key", .ok "job",
    (fun _ => .transcript ⟨"completed", none⟩),
    .ok [⟨"a", "A", 2840, 5860⟩], true⟩

theorem completed_session_segments_ordered_witness :
    ∃ segments,
      handleGetTranscription (handleWS wsEnvOK "c" 1 []).store "c"
        = ⟨200, .json segments⟩
      ∧ segments ≠ []
      ∧ (∀ s ∈ segments, s.start ≤ s.«end»)
      ∧ segments.Chain' (fun a b => a.start ≤ b.start) :=
  completed_session_segments_ordered wsEnvOK "c" 1 [] [⟨"a", "A", 2840, 5860⟩]
    rfl (by decide) (by decide) (by simp) rfl

/-- Lock invariant of the store mutex: a task is inside its critical section
exactly when it holds the lock. -/
def LockInv {n : Nat} (s : LockState n) : Prop :=
  ∀ i, s.pc i = .crit ↔ s.owner = some i

theorem lockInv_init (n : Nat) : LockInv (lockInit n) := by
  intro i
  simp [lockInit]

theorem lockInv_step {n : Nat} {s s' : LockState n} (hinv : LockInv s)
    (hs : LockStep n s s') : LockInv s' := by
  cases hs with
  | acquire i hpc hfree =>
    intro j
    dsimp only
    by_cases hij : j = i
    · subst hij
      rw [Function.update_same]
      simp
    · rw [Function.update_noteq hij]
      constructor
      · intro hc
        have hown := (hinv j).1 hc
        rw [hfree] at hown
        exact absurd hown (by simp)
      · intro hsome
        exact absurd (Option.some.inj hsome).symm hij
  | release i hpc hown =>
    intro j
    dsimp only
    by_cases hij : j = i
    · subst hij
      rw [Function.update_same]
      simp
    · rw [Function.update_noteq hij]
      constructor
      · intro hc
        have hj := (hinv j).1 hc
        rw [hown] at hj
        exact absurd (Option.some.inj hj).symm hij
      · intro hsome
        exact absurd hsome (by simp)

theorem lockReachable_inv {n : Nat} {s : LockState n}
    (h : LockReachable n s) : LockInv s := by
  induction h with
  | init => exact lockInv_init n
  | step _ hs ih => exact lockInv_step ih hs

/-- C7 counterexample: the code guards reads of the store with the same
plain exclusive `sync.Mutex` as writes, so in the two-retrieval-task system
no reachable state has both readers inside their store read sections — the
claim that reads may proceed concurrently with other reads is false. -/
theorem no_concurrent_reads :
    ¬ ∃ s : LockState 2, LockReachable 2 s
      ∧ s.pc 0 = .crit ∧ s.pc 1 = .crit := by
  rintro ⟨s, hr, h0, h1⟩
  have hinv := lockReachable_inv hr
  have ha := (hinv 0).1 h0
  have hb := (hinv 1).1 h1
  rw [ha] at hb
  exact absurd (Option.some.inj hb) (by decide)

/-- C7 (amended): the result store serializes all access — mutating and
reading alike — under the single mutual-exclusion lock `mu`: in every
reachable state at most one task, reader or writer, is inside its store
critical section. -/
theorem store_access_mutual_exclusion {n : Nat} (s : LockState n)
    (hr : LockReachable n s) (i j : Fin n) (hij : i ≠ j) :
    ¬(s.pc i = .crit ∧ s.pc j = .crit) := by
  rintro ⟨hi, hj⟩
  have hinv := lockReachable_inv hr
  have ha := (hinv i).1 hi
  have hb := (hinv j).1 hj
  rw [ha] at hb
  exact hij (Option.some.inj hb)

theorem store_access_mutual_exclusion_witness :
    ¬((lockInit 2).pc 0 = .crit ∧ (lockInit 2).pc 1 = .crit) :=
  store_access_mutual_exclusion (lockInit 2) LockReachable.init 0 1
    (by decide)

end MeetingAI
